import Mathlib

set_option autoImplicit false

/-!
Shallow embedding of the Mobgran offer-importer (Go) core:
identifier extraction, upstream fetch, and the hierarchical upsert engine
(`Importar`, `salvarCavaletesEItens`, `ValidarURL` from the services layer,
and the PostgreSQL client primitives `VerificarOfertaExistente`,
`SalvarOferta`, `SalvarCavalete`, `SalvarItem`, `AtualizarOferta`,
`RemoverCavaletesEItens` from the database layer).

Modelling conventions:
* Go strings become `String` / `List Char`.
* `float64` quantities become `Rat`; the importer never computes with them,
  it only copies them, so no floating-point rounding is observable.
* `uuid.New()` row-id generation becomes a fresh-`Nat` counter in the store.
* SQL statement outcomes are driven by an explicit success schedule
  `writeOk : Nat → Bool` indexed by a running count of attempted writes,
  so that failure of any individual INSERT/UPDATE/DELETE/COMMIT can be
  injected exactly where the Go code consults `err`.
* The HTTP transport and the JSON body decoder are environment parameters;
  `BuscarDadosAPI` is instrumented with request and decode counters.
-/

namespace Mobgran

/-! ### Identifier extraction (`ExtrairUUIDLink`, services) -/

/-- The character class `[0-9a-f]` of the Go regex (case-sensitive,
as Go's `regexp` is by default). -/
def isLowerHexDigit (c : Char) : Bool :=
  c.isDigit || (decide ('a' ≤ c) && decide (c ≤ 'f'))

/-- The case-insensitive hexadecimal class the spec describes
(`[0-9a-fA-F]`); used only to state the spec's reading of the contract. -/
def isHexDigitCI (c : Char) : Bool :=
  isLowerHexDigit c || (decide ('A' ≤ c) && decide (c ≤ 'F'))

/-- Consume exactly `n` characters satisfying `hex`, returning them and the
remainder; `none` if the input is shorter or a character is rejected.
This is `[..]{n}` of the regex applied at the current position. -/
def takeHex (hex : Char → Bool) : Nat → List Char → Option (List Char × List Char)
  | 0, cs => some ([], cs)
  | _ + 1, [] => none
  | n + 1, c :: cs =>
    if hex c then (takeHex hex n cs).map (fun gr => (c :: gr.1, gr.2)) else none

/-- Consume a literal hyphen. -/
def expectHyphen : List Char → Option (List Char)
  | '-' :: cs => some cs
  | _ => none

/-- Match the hyphen-separated group pattern (group sizes `ns`) at the head of
the input, returning the matched token.  With `ns = [8, 4, 4, 4, 12]` this is
the Go pattern
`[0-9a-f]{8}-[0-9a-f]{4}-[0-9a-f]{4}-[0-9a-f]{4}-[0-9a-f]{12}`
applied at one position. -/
def matchGroups (hex : Char → Bool) : List Nat → List Char → Option (List Char)
  | [], _ => some []
  | [n], cs => (takeHex hex n cs).map (·.1)
  | n :: n2 :: ns, cs =>
    match takeHex hex n cs with
    | none => none
    | some (g, r) =>
      match expectHyphen r with
      | none => none
      | some rh => (matchGroups hex (n2 :: ns) rh).map (fun t => g ++ '-' :: t)

/-- The group sizes of the provider token pattern. -/
def uuidGroups : List Nat := [8, 4, 4, 4, 12]

/-- `regexp.FindString` semantics for this pattern: scan positions left to
right and return the first (leftmost) match. -/
def findFirstMatch (hex : Char → Bool) : List Char → Option (List Char)
  | [] => matchGroups hex uuidGroups []
  | c :: cs =>
    match matchGroups hex uuidGroups (c :: cs) with
    | some t => some t
    | none => findFirstMatch hex cs

/-- `ExtrairUUIDLink` (services layer): extract the first lowercase-hex
8-4-4-4-12 token from the link, or fail ("UUID não encontrado no link"). -/
def ExtrairUUIDLink (url : String) : Option String :=
  (findFirstMatch isLowerHexDigit url.data).map (fun t => ⟨t⟩)

/-- Specification-side shape predicate: `t` consists of hyphen-separated
groups of `hex` characters with the given group sizes. -/
def GroupsToken (hex : Char → Bool) : List Nat → List Char → Prop
  | [], t => t = []
  | [n], t => t.length = n ∧ ∀ c ∈ t, hex c = true
  | n :: n2 :: ns, t =>
    ∃ g rest, t = g ++ '-' :: rest ∧ g.length = n ∧ (∀ c ∈ g, hex c = true) ∧
      GroupsToken hex (n2 :: ns) rest

/-- Specification-side containment: some substring of `s` is an 8-4-4-4-12
hyphen-delimited token over the character class `hex`. -/
def ContainsUUIDToken (hex : Char → Bool) (s : List Char) : Prop :=
  ∃ a m b : List Char, s = a ++ m ++ b ∧ GroupsToken hex uuidGroups m

theorem takeHex_sound (hex : Char → Bool) :
    ∀ (n : Nat) (cs t rest : List Char), takeHex hex n cs = some (t, rest) →
      cs = t ++ rest ∧ t.length = n ∧ ∀ c ∈ t, hex c = true := by
  intro n
  induction n with
  | zero =>
    intro cs t rest h
    simp only [takeHex, Option.some.injEq, Prod.mk.injEq] at h
    obtain ⟨rfl, rfl⟩ := h
    simp
  | succ n ih =>
    intro cs t rest h
    cases cs with
    | nil => simp [takeHex] at h
    | cons c cs' =>
      simp only [takeHex] at h
      by_cases hc : hex c
      · rw [if_pos hc] at h
        rcases Option.map_eq_some'.mp h with ⟨⟨g, r⟩, hg, hpair⟩
        simp only [Prod.mk.injEq] at hpair
        obtain ⟨rfl, rfl⟩ := hpair
        obtain ⟨hcs, hlen, hhex⟩ := ih cs' g r hg
        refine ⟨by simp [hcs], by simp [hlen], ?_⟩
        intro x hx
        rcases List.mem_cons.mp hx with rfl | hx
        · exact hc
        · exact hhex x hx
      · rw [if_neg hc] at h
        exact absurd h (by simp)

theorem takeHex_complete (hex : Char → Bool) :
    ∀ (g rest : List Char), (∀ c ∈ g, hex c = true) →
      takeHex hex g.length (g ++ rest) = some (g, rest) := by
  intro g
  induction g with
  | nil => intro rest _; simp [takeHex]
  | cons c g' ih =>
    intro rest hhex
    have hc : hex c = true := hhex c (List.mem_cons_self ..)
    have hg' : ∀ x ∈ g', hex x = true := fun x hx => hhex x (List.mem_cons_of_mem _ hx)
    simp only [List.length_cons, List.cons_append, takeHex, if_pos hc, List.append_eq,
      ih rest hg', Option.map_some']

theorem expectHyphen_sound {r rh : List Char} (h : expectHyphen r = some rh) :
    r = '-' :: rh := by
  match r with
  | [] => simp [expectHyphen] at h
  | c :: cs =>
    by_cases hc : c = '-'
    · subst hc
      simp only [expectHyphen, Option.some.injEq] at h
      rw [h]
    · simp only [expectHyphen] at h
      split at h
      · next heq => cases heq; simp at h; rw [h]
      · exact absurd h (by simp)

theorem matchGroups_sound (hex : Char → Bool) :
    ∀ (ns : List Nat) (cs t : List Char), matchGroups hex ns cs = some t →
      ∃ rest, cs = t ++ rest ∧ GroupsToken hex ns t := by
  intro ns
  induction ns with
  | nil =>
    intro cs t h
    simp only [matchGroups, Option.some.injEq] at h
    exact ⟨cs, by simp [h.symm], by simp [GroupsToken, h.symm]⟩
  | cons n ns ih =>
    intro cs t h
    cases ns with
    | nil =>
      simp only [matchGroups] at h
      rcases Option.map_eq_some'.mp h with ⟨⟨g, r⟩, hg, hfst⟩
      obtain ⟨hcs, hlen, hhex⟩ := takeHex_sound hex n cs g r hg
      simp only at hfst
      subst hfst
      exact ⟨r, hcs, hlen, hhex⟩
    | cons n2 ns' =>
      cases e1 : takeHex hex n cs with
      | none => simp only [matchGroups, e1] at h; exact Option.noConfusion h
      | some gr =>
        obtain ⟨g, r⟩ := gr
        cases e2 : expectHyphen r with
        | none => simp only [matchGroups, e1, e2] at h; exact Option.noConfusion h
        | some rh =>
          simp only [matchGroups, e1, e2] at h
          rcases Option.map_eq_some'.mp h with ⟨t', ht', rfl⟩
          obtain ⟨rest, hrh, htok⟩ := ih rh t' ht'
          obtain ⟨hcs, hlen, hhex⟩ := takeHex_sound hex n cs g r e1
          have hr : r = '-' :: rh := expectHyphen_sound e2
          refine ⟨rest, ?_, g, t', rfl, hlen, hhex, htok⟩
          rw [hcs, hr, hrh]
          simp

theorem matchGroups_complete (hex : Char → Bool) :
    ∀ (ns : List Nat) (t b : List Char), GroupsToken hex ns t →
      matchGroups hex ns (t ++ b) = some t := by
  intro ns
  induction ns with
  | nil =>
    intro t b htok
    have ht : t = [] := htok
    simp [matchGroups, ht]
  | cons n ns ih =>
    intro t b htok
    cases ns with
    | nil =>
      obtain ⟨hlen, hhex⟩ := htok
      simp only [matchGroups]
      rw [← hlen, takeHex_complete hex t b hhex]
      rfl
    | cons n2 ns' =>
      obtain ⟨g, rest, rfl, hlen, hhex, htok'⟩ := htok
      simp only [matchGroups]
      have : (g ++ '-' :: rest) ++ b = g ++ '-' :: (rest ++ b) := by simp
      rw [this, ← hlen, takeHex_complete hex g ('-' :: (rest ++ b)) hhex]
      simp only [expectHyphen, ih rest b htok', Option.map_some']

theorem findFirstMatch_sound (hex : Char → Bool) :
    ∀ (s t : List Char), findFirstMatch hex s = some t →
      ContainsUUIDToken hex s := by
  intro s
  induction s with
  | nil =>
    intro t h
    simp only [findFirstMatch] at h
    obtain ⟨rest, hs, htok⟩ := matchGroups_sound hex uuidGroups [] t h
    exact ⟨[], t, rest, by simp [← hs], htok⟩
  | cons c cs ih =>
    intro t h
    simp only [findFirstMatch] at h
    cases e : matchGroups hex uuidGroups (c :: cs) with
    | some t' =>
      obtain ⟨rest, hs, htok⟩ := matchGroups_sound hex uuidGroups (c :: cs) t' e
      exact ⟨[], t', rest, by simp [hs], htok⟩
    | none =>
      rw [e] at h
      simp only at h
      obtain ⟨a, m, b, hs, htok⟩ := ih t h
      exact ⟨c :: a, m, b, by simp [hs], htok⟩

theorem findFirstMatch_complete (hex : Char → Bool) :
    ∀ (s : List Char), ContainsUUIDToken hex s →
      (findFirstMatch hex s).isSome = true := by
  intro s
  induction s with
  | nil =>
    rintro ⟨a, m, b, hs, htok⟩
    have h0 : (a ++ m) ++ b = [] := hs.symm
    obtain ⟨ham, hb⟩ := List.append_eq_nil.mp h0
    obtain ⟨ha, hm⟩ := List.append_eq_nil.mp ham
    subst hm
    have h2 : matchGroups hex uuidGroups [] = some [] := by
      simpa using matchGroups_complete hex uuidGroups [] [] htok
    simp only [findFirstMatch]
    rw [h2]
    rfl
  | cons c cs ih =>
    rintro ⟨a, m, b, hs, htok⟩
    cases a with
    | nil =>
      simp only [List.nil_append] at hs
      simp only [findFirstMatch]
      rw [hs, matchGroups_complete hex uuidGroups m b htok]
      rfl
    | cons a0 as =>
      simp only [List.cons_append] at hs
      injection hs with h1 h2
      simp only [findFirstMatch]
      cases e : matchGroups hex uuidGroups (c :: cs) with
      | some t => rfl
      | none => exact ih ⟨as, m, b, h2, htok⟩

/-! ### Upstream document model (internal/models/mobgran.go)

The `Blocos`, `BlocosComChapas`, `Chapas` and `BlocosMarcados` fields of the
Go `MobgranResponse` are lists of empty structs (no fields declared), so they
carry no data and are omitted here. -/

structure ImagemPrincipal where
  nome : String
  url : String
  urlMin : String
deriving DecidableEq

structure Item where
  nomeEspessura : String
  nomeClassificacao : String
  comprimento : Rat
  altura : Rat
  codigo : String
  bloco : String
  metragem : Rat
deriving DecidableEq

structure Cavalete where
  nomeMaterial : String
  nomeEspessura : String
  comprimento : Rat
  altura : Rat
  imagemPrincipal : Option ImagemPrincipal
  codigo : String
  bloco : String
  metragem : Rat
  itens : List Item
deriving DecidableEq

structure MobgranResponse where
  situacao : String
  nomeEmpresa : String
  urlLogo : String
  cavaletes : List Cavalete
deriving DecidableEq

/-! ### JSON wire shapes and Go `encoding/json` decoding

In the Go structs every dimensional field is a plain (non-pointer) `float64`
and every textual field a plain `string`; only `ImagemPrincipal` is a
pointer.  `encoding/json` therefore fills an absent key with the Go zero
value: `0` for numbers, `""` for strings, `nil` for the pointer.  The wire
shapes below record which keys are present, and the decode functions apply
exactly that defaulting. -/

structure ImagemPrincipalJSON where
  nome : Option String
  url : Option String
  urlMin : Option String
deriving DecidableEq

structure ItemJSON where
  nomeEspessura : Option String
  nomeClassificacao : Option String
  comprimento : Option Rat
  altura : Option Rat
  codigo : Option String
  bloco : Option String
  metragem : Option Rat
deriving DecidableEq

structure CavaleteJSON where
  nomeMaterial : Option String
  nomeEspessura : Option String
  comprimento : Option Rat
  altura : Option Rat
  imagemPrincipal : Option ImagemPrincipalJSON
  codigo : Option String
  bloco : Option String
  metragem : Option Rat
  itens : List ItemJSON
deriving DecidableEq

def decodeImagem (j : ImagemPrincipalJSON) : ImagemPrincipal :=
  { nome := j.nome.getD "", url := j.url.getD "", urlMin := j.urlMin.getD "" }

def decodeItem (j : ItemJSON) : Item :=
  { nomeEspessura := j.nomeEspessura.getD "",
    nomeClassificacao := j.nomeClassificacao.getD "",
    comprimento := j.comprimento.getD 0, altura := j.altura.getD 0,
    codigo := j.codigo.getD "", bloco := j.bloco.getD "",
    metragem := j.metragem.getD 0 }

def decodeCavalete (j : CavaleteJSON) : Cavalete :=
  { nomeMaterial := j.nomeMaterial.getD "", nomeEspessura := j.nomeEspessura.getD "",
    comprimento := j.comprimento.getD 0, altura := j.altura.getD 0,
    imagemPrincipal := j.imagemPrincipal.map decodeImagem,
    codigo := j.codigo.getD "", bloco := j.bloco.getD "",
    metragem := j.metragem.getD 0, itens := j.itens.map decodeItem }

/-! ### Relational store (tables `ofertas`, `cavaletes`, `itens`)

Row ids (`uuid.New()` in Go) are modelled by the fresh counter `nextId`.
Nullable DECIMAL columns are `Option Rat`: `some q` is a stored value,
`none` is SQL NULL. -/

structure OfertaRow where
  id : Nat
  uuidLink : String
  situacao : String
  nomeEmpresa : String
  urlLogo : String
  dadosCompletos : MobgranResponse
deriving DecidableEq

structure CavaleteRow where
  id : Nat
  ofertaId : Nat
  codigo : String
  bloco : String
  nomeMaterial : String
  nomeEspessura : String
  comprimento : Option Rat
  altura : Option Rat
  metragem : Option Rat
  imagemPrincipal : Option ImagemPrincipal
  quantidadeItens : Nat
deriving DecidableEq

structure ItemRow where
  id : Nat
  cavaleteId : Nat
  codigo : String
  bloco : String
  nomeEspessura : String
  nomeClassificacao : String
  comprimento : Option Rat
  altura : Option Rat
  metragem : Option Rat
deriving DecidableEq

structure Store where
  ofertas : List OfertaRow
  cavaletes : List CavaleteRow
  itens : List ItemRow
  nextId : Nat
deriving DecidableEq

/-- Store plus the running count of attempted write statements; the count
indexes the environment's success schedule. -/
structure Db where
  store : Store
  writes : Nat
deriving DecidableEq

structure HttpResp where
  status : Nat
  body : String

/-- Environment: the HTTP transport, the JSON body decoder and the success
schedule for SQL write statements (`writeOk n` says whether the n-th
attempted write succeeds). -/
structure Env where
  transport : String → Except String HttpResp
  decodeBody : String → Except String MobgranResponse
  writeOk : Nat → Bool

/-! ### Persistence gateway (pkg/database client) -/

/-- VerificarOfertaExistente: `SELECT id FROM ofertas WHERE uuid_link = $1`.
`sql.ErrNoRows` maps to `none` (absence is not an error); the in-memory
store query itself cannot fail. -/
def VerificarOfertaExistente (st : Store) (ofertaUUID : String) : Option Nat :=
  (st.ofertas.find? (fun o => o.uuidLink == ofertaUUID)).map (fun o => o.id)

def mkOfertaRow (id : Nat) (uuid : String) (dados : MobgranResponse) : OfertaRow :=
  { id := id, uuidLink := uuid, situacao := dados.situacao,
    nomeEmpresa := dados.nomeEmpresa, urlLogo := dados.urlLogo,
    dadosCompletos := dados }

/-- SalvarOferta: `INSERT INTO ofertas (...) VALUES (...) RETURNING id`,
one row per call, id freshly generated. -/
def SalvarOferta (env : Env) (db : Db) (ofertaUUID : String)
    (dados : MobgranResponse) : Except String Nat × Db :=
  let id := db.store.nextId
  if env.writeOk db.writes then
    (.ok id,
      { store := { db.store with
          ofertas := db.store.ofertas ++ [mkOfertaRow id ofertaUUID dados],
          nextId := id + 1 },
        writes := db.writes + 1 })
  else
    (.error "Erro ao salvar oferta", { db with writes := db.writes + 1 })

/-- The `imagem_principal` JSONB parameter of SalvarCavalete: a non-nil
image with at least one nonempty field is serialized, anything else is
bound as SQL NULL (`sql.NullString with Valid false`). -/
def imagemPrincipalColumn (cavalete : Cavalete) : Option ImagemPrincipal :=
  match cavalete.imagemPrincipal with
  | some im =>
    if im.nome ≠ "" ∨ im.url ≠ "" ∨ im.urlMin ≠ "" then some im else none
  | none => none

def mkCavaleteRow (id ofertaId : Nat) (cavalete : Cavalete) : CavaleteRow :=
  { id := id, ofertaId := ofertaId, codigo := cavalete.codigo,
    bloco := cavalete.bloco, nomeMaterial := cavalete.nomeMaterial,
    nomeEspessura := cavalete.nomeEspessura,
    comprimento := some cavalete.comprimento, altura := some cavalete.altura,
    metragem := some cavalete.metragem,
    imagemPrincipal := imagemPrincipalColumn cavalete,
    quantidadeItens := cavalete.itens.length }

/-- SalvarCavalete: `INSERT INTO cavaletes (...) RETURNING id`.  The
dimensional parameters are the plain `float64` fields of the decoded
cavalete, so a non-NULL value is always bound. -/
def SalvarCavalete (env : Env) (db : Db) (ofertaID : Nat)
    (cavalete : Cavalete) : Except String Nat × Db :=
  let id := db.store.nextId
  if env.writeOk db.writes then
    (.ok id,
      { store := { db.store with
          cavaletes := db.store.cavaletes ++ [mkCavaleteRow id ofertaID cavalete],
          nextId := id + 1 },
        writes := db.writes + 1 })
  else
    (.error "Erro ao salvar cavalete", { db with writes := db.writes + 1 })

def mkItemRow (id cavaleteId : Nat) (item : Item) : ItemRow :=
  { id := id, cavaleteId := cavaleteId, codigo := item.codigo,
    bloco := item.bloco, nomeEspessura := item.nomeEspessura,
    nomeClassificacao := item.nomeClassificacao,
    comprimento := some item.comprimento, altura := some item.altura,
    metragem := some item.metragem }

/-- SalvarItem: `INSERT INTO itens (...)`, one row per call. -/
def SalvarItem (env : Env) (db : Db) (cavaleteID : Nat) (item : Item) :
    Except String Unit × Db :=
  let id := db.store.nextId
  if env.writeOk db.writes then
    (.ok (),
      { store := { db.store with
          itens := db.store.itens ++ [mkItemRow id cavaleteID item],
          nextId := id + 1 },
        writes := db.writes + 1 })
  else
    (.error "Erro ao salvar item", { db with writes := db.writes + 1 })

/-- AtualizarOferta: `UPDATE ofertas SET ... WHERE id = $1`, failing with
"nenhuma oferta encontrada" when zero rows are affected. -/
def AtualizarOferta (env : Env) (db : Db) (ofertaID : Nat)
    (dados : MobgranResponse) : Except String Unit × Db :=
  if env.writeOk db.writes then
    if db.store.ofertas.any (fun o => o.id == ofertaID) then
      (.ok (),
        { store := { db.store with
            ofertas := db.store.ofertas.map (fun o =>
              if o.id = ofertaID then
                { o with
                    situacao := dados.situacao,
                    nomeEmpresa := dados.nomeEmpresa,
                    urlLogo := dados.urlLogo,
                    dadosCompletos := dados }
              else o) },
          writes := db.writes + 1 })
    else
      (.error "nenhuma oferta encontrada com ID",
        { db with writes := db.writes + 1 })
  else
    (.error "Erro ao atualizar oferta", { db with writes := db.writes + 1 })

/-- The effect of the two DELETE statements of RemoverCavaletesEItens:
items of the offer's cavaletes go first, then the cavaletes themselves. -/
def removeChildren (st : Store) (ofertaID : Nat) : Store :=
  { st with
    itens := st.itens.filter (fun i =>
      !(st.cavaletes.any (fun c => c.ofertaId == ofertaID && c.id == i.cavaleteId))),
    cavaletes := st.cavaletes.filter (fun c => !(c.ofertaId == ofertaID)) }

/-- RemoverCavaletesEItens: `tx.Begin`; `DELETE FROM itens WHERE cavalete_id
IN (SELECT id FROM cavaletes WHERE oferta_id = $1)`; `DELETE FROM cavaletes
WHERE oferta_id = $1`; `tx.Commit`, with `defer tx.Rollback()`.  The two
deletes run on the transaction-local view; the store is changed only by a
successful commit, and any earlier failure leaves it untouched. -/
def RemoverCavaletesEItens (env : Env) (db : Db) (ofertaID : Nat) :
    Except String Unit × Db :=
  if env.writeOk db.writes then
    if env.writeOk (db.writes + 1) then
      if env.writeOk (db.writes + 2) then
        (.ok (), { store := removeChildren db.store ofertaID,
                   writes := db.writes + 3 })
      else
        (.error "Erro ao fazer commit da transação",
          { db with writes := db.writes + 3 })
    else
      (.error "Erro ao remover cavaletes", { db with writes := db.writes + 2 })
  else
    (.error "Erro ao remover itens", { db with writes := db.writes + 1 })

/-! ### Upstream fetcher and upsert engine (services layer) -/

/-- Instrumented outcome of BuscarDadosAPI: the decoded document or the
error, plus how many HTTP requests were issued and how many JSON body
decodes were attempted. -/
structure FetchOutcome where
  result : Except String MobgranResponse
  httpRequests : Nat
  decodes : Nat

/-- BuscarDadosAPI: one GET against the fixed endpoint; on a non-200 status
the body is read for diagnostics and the call fails without retrying and
without decoding; on 200 the JSON body is decoded. -/
def BuscarDadosAPI (env : Env) (uuid : String) : FetchOutcome :=
  match env.transport uuid with
  | .error e =>
    { result := .error ("erro ao fazer requisição para API: " ++ e),
      httpRequests := 1, decodes := 0 }
  | .ok resp =>
    if resp.status ≠ 200 then
      { result := .error ("API retornou status " ++ toString resp.status ++ ": " ++ resp.body),
        httpRequests := 1, decodes := 0 }
    else
      match env.decodeBody resp.body with
      | .error e =>
        { result := .error ("erro ao decodificar resposta da API: " ++ e),
          httpRequests := 1, decodes := 1 }
      | .ok dados => { result := .ok dados, httpRequests := 1, decodes := 1 }

/-- Character-list prefix test (mirrors the scan `strings.Contains` does). -/
def charsStartWith : List Char → List Char → Bool
  | [], _ => true
  | _ :: _, [] => false
  | p :: ps, c :: cs => p == c && charsStartWith ps cs

/-- Substring containment scan over character lists. -/
def charsContain (pat : List Char) : List Char → Bool
  | [] => charsStartWith pat []
  | c :: cs => charsStartWith pat (c :: cs) || charsContain pat cs

/-- strings.Contains. -/
def strContains (s pat : String) : Bool := charsContain pat.data s.data

/-- ValidarURL: nonempty, must contain the provider domain marker
"mobgran.com", and must contain an extractable UUID. -/
def ValidarURL (url : String) : Except String Unit :=
  if url = "" then .error "URL não pode estar vazia"
  else if strContains url "mobgran.com" then
    match ExtrairUUIDLink url with
    | none => .error "URL não contém um UUID válido: UUID não encontrado no link"
    | some _ => .ok ()
  else .error "URL deve ser do domínio mobgran.com"

/-- The Go loop inside salvarCavaletesEItens over one cavalete's items:
stops at the first failing insert. -/
def salvarItens (env : Env) (cavaleteID : Nat) (cavCodigo : String) :
    Db → List Item → Except String Unit × Db
  | db, [] => (.ok (), db)
  | db, item :: rest =>
    match SalvarItem env db cavaleteID item with
    | (.error e, db') =>
      (.error ("erro ao salvar item " ++ item.codigo ++ " do cavalete " ++
        cavCodigo ++ ": " ++ e), db')
    | (.ok _, db') => salvarItens env cavaleteID cavCodigo db' rest

/-- salvarCavaletesEItens: insert each cavalete, then each of its items
with the freshly returned cavalete id; the first failing insert aborts the
whole loop with an error and no compensating write. -/
def salvarCavaletesEItens (env : Env) (ofertaID : Nat) :
    Db → List Cavalete → Except String Unit × Db
  | db, [] => (.ok (), db)
  | db, cavalete :: rest =>
    match SalvarCavalete env db ofertaID cavalete with
    | (.error e, db') =>
      (.error ("erro ao salvar cavalete " ++ cavalete.codigo ++ ": " ++ e), db')
    | (.ok cavaleteID, db') =>
      match salvarItens env cavaleteID cavalete.codigo db' cavalete.itens with
      | (.error e, db2) => (.error e, db2)
      | (.ok _, db2) => salvarCavaletesEItens env ofertaID db2 rest

/-- The `(bool, string, *string, error)` quadruple Importar returns. -/
structure ImportResult where
  sucesso : Bool
  mensagem : String
  ofertaId : Option Nat
  err : Option String
deriving DecidableEq

/-- Importer state: the database plus a count of upstream HTTP requests
issued (instrumentation for the rejection-boundary property). -/
structure ImpState where
  db : Db
  fetchCalls : Nat
deriving DecidableEq

/-- Importar: validate the URL, extract the UUID, resolve existence, fetch
the upstream document, then either the already-exists early return, the
replace path (update offer, remove children, reinsert), or the create path
(insert offer, insert children). -/
def Importar (env : Env) (s : ImpState) (url : String)
    (atualizarExistente : Bool) : ImportResult × ImpState :=
  match ValidarURL url with
  | .error e =>
    ({ sucesso := false, mensagem := "URL inválida", ofertaId := none,
       err := some e }, s)
  | .ok _ =>
    match ExtrairUUIDLink url with
    | none =>
      ({ sucesso := false, mensagem := "Erro ao extrair UUID do link",
         ofertaId := none, err := some "UUID não encontrado no link" }, s)
    | some uuid =>
      let ofertaExistente := VerificarOfertaExistente s.db.store uuid
      let fet := BuscarDadosAPI env uuid
      let s1 : ImpState := { s with fetchCalls := s.fetchCalls + fet.httpRequests }
      match fet.result with
      | .error e =>
        ({ sucesso := false, mensagem := "Erro ao buscar dados da API",
           ofertaId := none, err := some e }, s1)
      | .ok dados =>
        match ofertaExistente with
        | some oid =>
          if atualizarExistente then
            match AtualizarOferta env s1.db oid dados with
            | (.error e, db') =>
              ({ sucesso := false, mensagem := "Erro ao atualizar oferta",
                 ofertaId := some oid, err := some e }, { s1 with db := db' })
            | (.ok _, db') =>
              match RemoverCavaletesEItens env db' oid with
              | (.error e, db2) =>
                ({ sucesso := false,
                   mensagem := "Erro ao remover cavaletes e itens antigos",
                   ofertaId := some oid, err := some e }, { s1 with db := db2 })
              | (.ok _, db2) =>
                match salvarCavaletesEItens env oid db2 dados.cavaletes with
                | (.error e, db3) =>
                  ({ sucesso := false,
                     mensagem := "Erro ao salvar cavaletes e itens",
                     ofertaId := some oid, err := some e }, { s1 with db := db3 })
                | (.ok _, db3) =>
                  ({ sucesso := true,
                     mensagem := "Importação realizada com sucesso",
                     ofertaId := some oid, err := none }, { s1 with db := db3 })
          else
            ({ sucesso := false,
               mensagem := "Oferta já existe e atualização não foi solicitada",
               ofertaId := some oid, err := none }, s1)
        | none =>
          match SalvarOferta env s1.db uuid dados with
          | (.error e, db') =>
            ({ sucesso := false, mensagem := "Erro ao salvar nova oferta",
               ofertaId := none, err := some e }, { s1 with db := db' })
          | (.ok oid, db') =>
            match salvarCavaletesEItens env oid db' dados.cavaletes with
            | (.error e, db2) =>
              ({ sucesso := false,
                 mensagem := "Erro ao salvar cavaletes e itens",
                 ofertaId := some oid, err := some e }, { s1 with db := db2 })
            | (.ok _, db2) =>
              ({ sucesso := true,
                 mensagem := "Importação realizada com sucesso",
                 ofertaId := some oid, err := none }, { s1 with db := db2 })

def emptyStore : Store := { ofertas := [], cavaletes := [], itens := [], nextId := 0 }

def emptyState : ImpState := { db := { store := emptyStore, writes := 0 }, fetchCalls := 0 }

/-! ### Characterization of the child-insertion loop -/

/-- Item rows produced for one cavalete (ids consecutive from `nid`). -/
def plannedItemRows (nid cavId : Nat) : List Item → List ItemRow
  | [] => []
  | it :: rest => mkItemRow nid cavId it :: plannedItemRows (nid + 1) cavId rest

/-- Cavalete rows produced by the loop (one per document cavalete; each
cavalete consumes one id, then its items consume one id each). -/
def plannedCavRows (nid oid : Nat) : List Cavalete → List CavaleteRow
  | [] => []
  | cav :: rest =>
    mkCavaleteRow nid oid cav :: plannedCavRows (nid + 1 + cav.itens.length) oid rest

/-- All item rows produced by the loop across the cavaletes. -/
def plannedItemRowsAll (nid : Nat) : List Cavalete → List ItemRow
  | [] => []
  | cav :: rest =>
    plannedItemRows (nid + 1) nid cav.itens ++
      plannedItemRowsAll (nid + 1 + cav.itens.length) rest

/-- Value of the id counter after the loop. -/
def nidAfter (nid : Nat) : List Cavalete → Nat
  | [] => nid
  | cav :: rest => nidAfter (nid + 1 + cav.itens.length) rest

/-- Number of INSERT statements the loop issues when everything succeeds. -/
def writesOf : List Cavalete → Nat
  | [] => 0
  | cav :: rest => 1 + cav.itens.length + writesOf rest

theorem plannedItemRows_length :
    ∀ (its : List Item) (nid cavId : Nat),
      (plannedItemRows nid cavId its).length = its.length := by
  intro its
  induction its with
  | nil => intro nid cavId; rfl
  | cons it rest ih => intro nid cavId; simp [plannedItemRows, ih]

theorem plannedCavRows_length :
    ∀ (cavs : List Cavalete) (nid oid : Nat),
      (plannedCavRows nid oid cavs).length = cavs.length := by
  intro cavs
  induction cavs with
  | nil => intro nid oid; rfl
  | cons cav rest ih => intro nid oid; simp [plannedCavRows, ih]

theorem plannedItemRowsAll_length :
    ∀ (cavs : List Cavalete) (nid : Nat),
      (plannedItemRowsAll nid cavs).length =
        (cavs.map (fun c => c.itens.length)).sum := by
  intro cavs
  induction cavs with
  | nil => intro nid; rfl
  | cons cav rest ih =>
    intro nid
    simp [plannedItemRowsAll, plannedItemRows_length, ih]

theorem plannedCavRows_ofertaId :
    ∀ (cavs : List Cavalete) (nid oid : Nat) (c : CavaleteRow),
      c ∈ plannedCavRows nid oid cavs → c.ofertaId = oid := by
  intro cavs
  induction cavs with
  | nil => intro nid oid c hc; simp [plannedCavRows] at hc
  | cons cav rest ih =>
    intro nid oid c hc
    rcases List.mem_cons.mp hc with rfl | hc
    · rfl
    · exact ih _ oid c hc

theorem plannedItemRows_cavaleteId :
    ∀ (its : List Item) (nid cavId : Nat) (i : ItemRow),
      i ∈ plannedItemRows nid cavId its → i.cavaleteId = cavId := by
  intro its
  induction its with
  | nil => intro nid cavId i hi; simp [plannedItemRows] at hi
  | cons it rest ih =>
    intro nid cavId i hi
    rcases List.mem_cons.mp hi with rfl | hi
    · rfl
    · exact ih _ cavId i hi

/-- Every produced item row points at one of the produced cavalete rows. -/
theorem plannedItemRowsAll_linked :
    ∀ (cavs : List Cavalete) (nid oid : Nat) (i : ItemRow),
      i ∈ plannedItemRowsAll nid cavs →
        ∃ c ∈ plannedCavRows nid oid cavs, c.id = i.cavaleteId := by
  intro cavs
  induction cavs with
  | nil => intro nid oid i hi; simp [plannedItemRowsAll] at hi
  | cons cav rest ih =>
    intro nid oid i hi
    rcases List.mem_append.mp hi with hi | hi
    · refine ⟨mkCavaleteRow nid oid cav, List.mem_cons_self .., ?_⟩
      exact (plannedItemRows_cavaleteId cav.itens (nid + 1) nid i hi).symm
    · obtain ⟨c, hc, hid⟩ := ih (nid + 1 + cav.itens.length) oid i hi
      exact ⟨c, List.mem_cons_of_mem _ hc, hid⟩

/-- salvarItens under an all-success schedule appends exactly the planned
item rows, advancing the id counter and the write counter by the item
count. -/
theorem salvarItens_allOk (env : Env) (hok : ∀ n, env.writeOk n = true)
    (cavId : Nat) (cod : String) :
    ∀ (its : List Item) (db : Db),
      salvarItens env cavId cod db its =
        (.ok (),
          { store := { db.store with
              itens := db.store.itens ++ plannedItemRows db.store.nextId cavId its,
              nextId := db.store.nextId + its.length },
            writes := db.writes + its.length }) := by
  intro its
  induction its with
  | nil => intro db; simp [salvarItens, plannedItemRows]
  | cons it rest ih =>
    intro db
    simp only [salvarItens, SalvarItem, hok, if_true, plannedItemRows]
    rw [ih]
    simp only [Prod.mk.injEq, Db.mk.injEq, Store.mk.injEq, List.append_assoc,
      List.singleton_append, List.cons_append, List.nil_append, List.length_cons,
      true_and, and_true]
    omega

theorem plannedCavRows_filter_out (cavs : List Cavalete) (nid oid : Nat) :
    (plannedCavRows nid oid cavs).filter (fun c => !(c.ofertaId == oid)) = [] := by
  rw [List.filter_eq_nil_iff]
  intro c hc
  have h := plannedCavRows_ofertaId cavs nid oid c hc
  simp [h]

theorem plannedItemRowsAll_filter_out (cavs : List Cavalete) (nid oid : Nat) :
    (plannedItemRowsAll nid cavs).filter (fun i =>
      !((plannedCavRows nid oid cavs).any
        (fun c => c.ofertaId == oid && c.id == i.cavaleteId))) = [] := by
  rw [List.filter_eq_nil_iff]
  intro i hi
  obtain ⟨c, hc, hid⟩ := plannedItemRowsAll_linked cavs nid oid i hi
  have hof := plannedCavRows_ofertaId cavs nid oid c hc
  simp only [Bool.not_eq_true, Bool.not_eq_eq_eq_not, Bool.not_true,
    Bool.not_eq_false]
  rw [List.any_eq_true]
  exact ⟨c, hc, by simp [hof, hid]⟩

/-- salvarCavaletesEItens under an all-success schedule appends exactly the
planned cavalete and item rows. -/
theorem salvarCavaletesEItens_allOk (env : Env)
    (hok : ∀ n, env.writeOk n = true) (oid : Nat) :
    ∀ (cavs : List Cavalete) (db : Db),
      salvarCavaletesEItens env oid db cavs =
        (.ok (),
          { store := { db.store with
              cavaletes := db.store.cavaletes ++ plannedCavRows db.store.nextId oid cavs,
              itens := db.store.itens ++ plannedItemRowsAll db.store.nextId cavs,
              nextId := nidAfter db.store.nextId cavs },
            writes := db.writes + writesOf cavs }) := by
  intro cavs
  induction cavs with
  | nil =>
    intro db
    simp [salvarCavaletesEItens, plannedCavRows, plannedItemRowsAll, nidAfter, writesOf]
  | cons cav rest ih =>
    intro db
    simp only [salvarCavaletesEItens, SalvarCavalete, hok, if_true]
    rw [salvarItens_allOk env hok db.store.nextId cav.codigo cav.itens]
    refine (ih _).trans ?_
    simp only [plannedCavRows, plannedItemRowsAll, nidAfter, writesOf,
      Prod.mk.injEq, Db.mk.injEq, Store.mk.injEq, List.append_assoc,
      List.singleton_append, List.cons_append, List.nil_append,
      true_and, and_true]
    omega

theorem buscarDadosAPI_httpRequests (env : Env) (uuid : String) :
    (BuscarDadosAPI env uuid).httpRequests = 1 := by
  unfold BuscarDadosAPI
  cases htr : env.transport uuid with
  | error e => rfl
  | ok resp =>
    dsimp only
    split
    · rfl
    · split <;> rfl

/-- Full state equality for the create path of Importar under an
all-success schedule. -/
theorem importar_create_eq (env : Env) (s : ImpState) (url uuid : String)
    (dados : MobgranResponse) (b : Bool)
    (hok : ∀ n, env.writeOk n = true)
    (hv : ValidarURL url = .ok ())
    (hu : ExtrairUUIDLink url = some uuid)
    (hnone : VerificarOfertaExistente s.db.store uuid = none)
    (hf : (BuscarDadosAPI env uuid).result = .ok dados) :
    Importar env s url b =
      ({ sucesso := true, mensagem := "Importação realizada com sucesso",
         ofertaId := some s.db.store.nextId, err := none },
       { db :=
           { store :=
               { ofertas := s.db.store.ofertas ++ [mkOfertaRow s.db.store.nextId uuid dados],
                 cavaletes := s.db.store.cavaletes ++
                   plannedCavRows (s.db.store.nextId + 1) s.db.store.nextId dados.cavaletes,
                 itens := s.db.store.itens ++
                   plannedItemRowsAll (s.db.store.nextId + 1) dados.cavaletes,
                 nextId := nidAfter (s.db.store.nextId + 1) dados.cavaletes },
             writes := s.db.writes + 1 + writesOf dados.cavaletes },
         fetchCalls := s.fetchCalls + 1 }) := by
  unfold Importar
  simp only [hv, hu, hnone, hf, buscarDadosAPI_httpRequests, SalvarOferta,
    hok, if_true, salvarCavaletesEItens_allOk env hok]

/-- Full state equality for the replace path of Importar under an
all-success schedule. -/
theorem importar_update_eq (env : Env) (s : ImpState) (url uuid : String)
    (dados : MobgranResponse) (oid : Nat)
    (hok : ∀ n, env.writeOk n = true)
    (hv : ValidarURL url = .ok ())
    (hu : ExtrairUUIDLink url = some uuid)
    (hsome : VerificarOfertaExistente s.db.store uuid = some oid)
    (hany : s.db.store.ofertas.any (fun o => o.id == oid) = true)
    (hf : (BuscarDadosAPI env uuid).result = .ok dados) :
    Importar env s url true =
      ({ sucesso := true, mensagem := "Importação realizada com sucesso",
         ofertaId := some oid, err := none },
       { db :=
           { store :=
               { ofertas := s.db.store.ofertas.map (fun o =>
                   if o.id = oid then
                     { o with
                         situacao := dados.situacao,
                         nomeEmpresa := dados.nomeEmpresa,
                         urlLogo := dados.urlLogo,
                         dadosCompletos := dados }
                   else o),
                 cavaletes :=
                   s.db.store.cavaletes.filter (fun c => !(c.ofertaId == oid)) ++
                     plannedCavRows s.db.store.nextId oid dados.cavaletes,
                 itens :=
                   s.db.store.itens.filter (fun i =>
                     !(s.db.store.cavaletes.any
                       (fun c => c.ofertaId == oid && c.id == i.cavaleteId))) ++
                     plannedItemRowsAll s.db.store.nextId dados.cavaletes,
                 nextId := nidAfter s.db.store.nextId dados.cavaletes },
             writes := s.db.writes + 1 + 3 + writesOf dados.cavaletes },
         fetchCalls := s.fetchCalls + 1 }) := by
  unfold Importar
  simp only [hv, hu, hsome, hf, buscarDadosAPI_httpRequests, AtualizarOferta,
    RemoverCavaletesEItens, removeChildren, hany, hok, if_true,
    salvarCavaletesEItens_allOk env hok]

/-! ### Concrete fixtures for witnesses and counterexamples -/

def uuidEx : String := "aaaaaaaa-aaaa-aaaa-aaaa-aaaaaaaaaaaa"

def urlEx : String := "https://mobgran.com/o=aaaaaaaa-aaaa-aaaa-aaaa-aaaaaaaaaaaa"

def itemEx : Item :=
  { nomeEspessura := "2cm", nomeClassificacao := "Classificada", comprimento := 3,
    altura := 2, codigo := "0001", bloco := "B1", metragem := 6 }

def cavEx1 : Cavalete :=
  { nomeMaterial := "Granito Preto", nomeEspessura := "2cm", comprimento := 3,
    altura := 2, imagemPrincipal := none, codigo := "CAV1", bloco := "B1",
    metragem := 6, itens := [itemEx] }

def cavEx2 : Cavalete :=
  { nomeMaterial := "Granito Branco", nomeEspessura := "3cm", comprimento := 2,
    altura := 1, imagemPrincipal := none, codigo := "CAV2", bloco := "B2",
    metragem := 2, itens := [] }

def docEx1 : MobgranResponse :=
  { situacao := "DISPONIVEL", nomeEmpresa := "Empresa", urlLogo := "logo",
    cavaletes := [cavEx1, cavEx2] }

def docEx2 : MobgranResponse :=
  { situacao := "VENDIDO", nomeEmpresa := "Empresa", urlLogo := "logo",
    cavaletes := [cavEx2] }

/-- Environment whose upstream always answers 200 with a body that decodes
to `doc`, and whose store accepts every write. -/
def envOk (doc : MobgranResponse) : Env :=
  { transport := fun _ => .ok { status := 200, body := "corpo" },
    decodeBody := fun _ => .ok doc,
    writeOk := fun _ => true }

/-- Environment whose HTTP transport fails. -/
def envDown : Env :=
  { transport := fun _ => .error "connection refused",
    decodeBody := fun _ => .error "sem corpo",
    writeOk := fun _ => true }

/-- Environment answering 404 with a diagnostic body. -/
def envHttp404 : Env :=
  { transport := fun _ => .ok { status := 404, body := "nao encontrado" },
    decodeBody := fun _ => .error "sem corpo",
    writeOk := fun _ => true }

/-- Environment in which only the first `k` write statements succeed. -/
def envFailAfter (doc : MobgranResponse) (k : Nat) : Env :=
  { transport := fun _ => .ok { status := 200, body := "corpo" },
    decodeBody := fun _ => .ok doc,
    writeOk := fun n => decide (n < k) }

/-- A store already holding the offer with the canonical identifier. -/
def stExisting : ImpState :=
  { db :=
      { store :=
          { ofertas := [mkOfertaRow 0 uuidEx docEx1], cavaletes := [],
            itens := [], nextId := 1 },
        writes := 0 },
    fetchCalls := 0 }

def upperTokenEx : String := "AAAAAAAA-AAAA-AAAA-AAAA-AAAAAAAAAAAA"

/-! ### Claim theorems -/

/-- C6 counterexample: the claim says hex digits are matched
case-insensitively, so a string containing the token only with uppercase
hex digits would be accepted; the Go pattern `[0-9a-f]` is case-sensitive
and rejects it. -/
theorem extrairUUIDLink_uppercase_rejected :
    ContainsUUIDToken isHexDigitCI upperTokenEx.data ∧
    ExtrairUUIDLink upperTokenEx = none := by
  constructor
  · exact findFirstMatch_sound isHexDigitCI upperTokenEx.data
      upperTokenEx.data (by decide)
  · rfl

/-- C6 (amended): ExtrairUUIDLink returns an identifier if and only if the
input contains an 8-4-4-4-12 hyphen-delimited token of LOWERCASE hex
digits; a token written only with uppercase hex digits is not found. -/
theorem extrairUUIDLink_iff_contains_lowercase_token (s : String) :
    (ExtrairUUIDLink s).isSome = true ↔
      ContainsUUIDToken isLowerHexDigit s.data := by
  constructor
  · intro h
    unfold ExtrairUUIDLink at h
    cases hfm : findFirstMatch isLowerHexDigit s.data with
    | none => rw [hfm] at h; simp at h
    | some t => exact findFirstMatch_sound isLowerHexDigit s.data t hfm
  · intro h
    have h2 := findFirstMatch_complete isLowerHexDigit s.data h
    unfold ExtrairUUIDLink
    obtain ⟨t, ht⟩ := Option.isSome_iff_exists.mp h2
    rw [ht]
    rfl

/-- C7: a link without the provider domain marker "mobgran.com" is rejected
with a failure before any upstream call: the returned state is the input
state, in particular the fetcher invocation count is unchanged. -/
theorem importar_rejects_before_fetch (env : Env) (s : ImpState) (url : String)
    (b : Bool) (hdom : strContains url "mobgran.com" = false) :
    (Importar env s url b).1.sucesso = false ∧
    (Importar env s url b).1.err ≠ none ∧
    (Importar env s url b).2 = s ∧
    (Importar env s url b).2.fetchCalls = s.fetchCalls := by
  have hval : ValidarURL url = .error "URL não pode estar vazia" ∨
      ValidarURL url = .error "URL deve ser do domínio mobgran.com" := by
    unfold ValidarURL
    by_cases hemp : url = ""
    · left; rw [if_pos hemp]
    · right; rw [if_neg hemp]; simp [hdom]
  rcases hval with hval | hval <;>
  · unfold Importar
    simp [hval]

/-- C7 witness: a non-provider link is rejected with the state unchanged. -/
theorem importar_rejects_before_fetch_witness :
    strContains "https://example.com/x" "mobgran.com" = false ∧
    (Importar envDown emptyState "https://example.com/x" false).2 = emptyState :=
  ⟨rfl, (importar_rejects_before_fetch envDown emptyState
    "https://example.com/x" false rfl).2.2.1⟩

/-- C8: on any non-200 upstream status, BuscarDadosAPI fails with an error
carrying the status code and the response body, issues exactly one HTTP
request (no retry), and attempts no decode. -/
theorem buscarDadosAPI_non200 (env : Env) (uuid : String) (resp : HttpResp)
    (htr : env.transport uuid = .ok resp) (hst : resp.status ≠ 200) :
    (BuscarDadosAPI env uuid).result =
      .error ("API retornou status " ++ toString resp.status ++ ": " ++ resp.body) ∧
    (∃ p q, "API retornou status " ++ toString resp.status ++ ": " ++ resp.body =
      p ++ toString resp.status ++ q) ∧
    (∃ r, "API retornou status " ++ toString resp.status ++ ": " ++ resp.body =
      r ++ resp.body) ∧
    (BuscarDadosAPI env uuid).httpRequests = 1 ∧
    (BuscarDadosAPI env uuid).decodes = 0 := by
  unfold BuscarDadosAPI
  rw [htr]
  dsimp only
  rw [if_pos hst]
  exact ⟨rfl,
    ⟨"API retornou status ", ": " ++ resp.body, by rw [String.append_assoc]⟩,
    ⟨"API retornou status " ++ toString resp.status ++ ": ", rfl⟩, rfl, rfl⟩

/-- C8 witness: a 404 answer produces the diagnostic error, one request and
no decode. -/
theorem buscarDadosAPI_non200_witness :
    envHttp404.transport uuidEx = .ok { status := 404, body := "nao encontrado" } ∧
    (404 : Nat) ≠ 200 ∧
    (BuscarDadosAPI envHttp404 uuidEx).result =
      .error ("API retornou status " ++ toString (404 : Nat) ++ ": " ++ "nao encontrado") :=
  ⟨rfl, by decide,
    (buscarDadosAPI_non200 envHttp404 uuidEx
      { status := 404, body := "nao encontrado" } rfl (by decide)).1⟩

/-- C10: RemoverCavaletesEItens is all-or-nothing: either some step failed
and the published store is exactly the input store, or it succeeded and
both the items and the cavaletes of the offer are gone. -/
theorem removerCavaletesEItens_all_or_nothing (env : Env) (db : Db) (oid : Nat) :
    ((∃ e, (RemoverCavaletesEItens env db oid).1 = .error e) ∧
      (RemoverCavaletesEItens env db oid).2.store = db.store) ∨
    ((RemoverCavaletesEItens env db oid).1 = .ok () ∧
      (RemoverCavaletesEItens env db oid).2.store = removeChildren db.store oid) := by
  unfold RemoverCavaletesEItens
  by_cases h1 : env.writeOk db.writes = true
  · rw [if_pos h1]
    by_cases h2 : env.writeOk (db.writes + 1) = true
    · rw [if_pos h2]
      by_cases h3 : env.writeOk (db.writes + 2) = true
      · rw [if_pos h3]; right; exact ⟨rfl, rfl⟩
      · rw [if_neg h3]; left; exact ⟨⟨_, rfl⟩, rfl⟩
    · rw [if_neg h2]; left; exact ⟨⟨_, rfl⟩, rfl⟩
  · rw [if_neg h1]; left; exact ⟨⟨_, rfl⟩, rfl⟩

def cavJAbsent : CavaleteJSON :=
  { nomeMaterial := some "Granito", nomeEspessura := some "2cm",
    comprimento := none, altura := none, imagemPrincipal := none,
    codigo := some "CAV9", bloco := some "B9", metragem := none, itens := [] }

/-- C9 counterexample: a cavalete whose upstream JSON omits the optional
dimensional field comprimento decodes to the Go zero value and is stored as
the value 0, not as NULL. -/
theorem absent_dimension_not_stored_as_null :
    cavJAbsent.comprimento = none ∧
    (SalvarCavalete (envOk docEx1) { store := emptyStore, writes := 0 } 0
        (decodeCavalete cavJAbsent)).2.store.cavaletes =
      [mkCavaleteRow 0 0 (decodeCavalete cavJAbsent)] ∧
    (mkCavaleteRow 0 0 (decodeCavalete cavJAbsent)).comprimento = some 0 ∧
    (mkCavaleteRow 0 0 (decodeCavalete cavJAbsent)).comprimento ≠ none :=
  ⟨rfl, rfl, rfl, by simp [mkCavaleteRow]⟩

def itemJAbsent : ItemJSON :=
  { nomeEspessura := some "2cm", nomeClassificacao := some "Classificada",
    comprimento := none, altura := none, codigo := some "IT9",
    bloco := some "B9", metragem := none }

/-- C9 (amended): dimensional fields absent upstream decode to the Go zero
value and are stored as the non-NULL value 0, by the cavalete insert and by
the item insert alike; the optional principal-image descriptor is the one
field stored as NULL, both when it is absent and when it is empty. -/
theorem salvar_absent_dimension_zero (env : Env) (db db2 : Db) (oid cid : Nat)
    (j : CavaleteJSON) (ji : ItemJSON)
    (hw : env.writeOk db.writes = true)
    (hw2 : env.writeOk db2.writes = true)
    (hcomp : j.comprimento = none) (halt : j.altura = none)
    (hmet : j.metragem = none)
    (himg : j.imagemPrincipal = none ∨
      ∃ ij, j.imagemPrincipal = some ij ∧ ij.nome.getD "" = "" ∧
        ij.url.getD "" = "" ∧ ij.urlMin.getD "" = "")
    (hicomp : ji.comprimento = none) (hialt : ji.altura = none)
    (himet : ji.metragem = none) :
    (SalvarCavalete env db oid (decodeCavalete j)).2.store.cavaletes =
      db.store.cavaletes ++ [mkCavaleteRow db.store.nextId oid (decodeCavalete j)] ∧
    (mkCavaleteRow db.store.nextId oid (decodeCavalete j)).comprimento = some 0 ∧
    (mkCavaleteRow db.store.nextId oid (decodeCavalete j)).altura = some 0 ∧
    (mkCavaleteRow db.store.nextId oid (decodeCavalete j)).metragem = some 0 ∧
    (mkCavaleteRow db.store.nextId oid (decodeCavalete j)).imagemPrincipal = none ∧
    (SalvarItem env db2 cid (decodeItem ji)).2.store.itens =
      db2.store.itens ++ [mkItemRow db2.store.nextId cid (decodeItem ji)] ∧
    (mkItemRow db2.store.nextId cid (decodeItem ji)).comprimento = some 0 ∧
    (mkItemRow db2.store.nextId cid (decodeItem ji)).altura = some 0 ∧
    (mkItemRow db2.store.nextId cid (decodeItem ji)).metragem = some 0 := by
  refine ⟨?_, ?_, ?_, ?_, ?_, ?_, ?_, ?_, ?_⟩
  · unfold SalvarCavalete
    rw [if_pos hw]
  · simp [mkCavaleteRow, decodeCavalete, hcomp]
  · simp [mkCavaleteRow, decodeCavalete, halt]
  · simp [mkCavaleteRow, decodeCavalete, hmet]
  · rcases himg with himg | ⟨ij, hij, h1, h2, h3⟩
    · simp [mkCavaleteRow, imagemPrincipalColumn, decodeCavalete, himg]
    · simp [mkCavaleteRow, imagemPrincipalColumn, decodeCavalete, decodeImagem,
        hij, h1, h2, h3]
  · unfold SalvarItem
    rw [if_pos hw2]
  · simp [mkItemRow, decodeItem, hicomp]
  · simp [mkItemRow, decodeItem, hialt]
  · simp [mkItemRow, decodeItem, himet]

/-- C9 witness: the amended behaviour at concrete absent-field cavalete and
item documents. -/
theorem salvar_absent_dimension_zero_witness :
    cavJAbsent.comprimento = none ∧ cavJAbsent.altura = none ∧
    cavJAbsent.metragem = none ∧ cavJAbsent.imagemPrincipal = none ∧
    itemJAbsent.comprimento = none ∧ itemJAbsent.altura = none ∧
    itemJAbsent.metragem = none ∧
    (envOk docEx1).writeOk 0 = true ∧
    (mkCavaleteRow 0 0 (decodeCavalete cavJAbsent)).comprimento = some 0 ∧
    (mkCavaleteRow 0 0 (decodeCavalete cavJAbsent)).imagemPrincipal = none ∧
    (mkItemRow 0 0 (decodeItem itemJAbsent)).comprimento = some 0 := by
  have h := salvar_absent_dimension_zero (envOk docEx1)
    { store := emptyStore, writes := 0 } { store := emptyStore, writes := 0 }
    0 0 cavJAbsent itemJAbsent rfl rfl rfl rfl rfl (Or.inl rfl) rfl rfl rfl
  exact ⟨rfl, rfl, rfl, rfl, rfl, rfl, rfl, rfl,
    h.2.1, h.2.2.2.2.1, h.2.2.2.2.2.2.1⟩

/-- C2: a successful import of a previously-unseen identifier inserts
exactly one Offer row, one cavalete row per document cavalete, and one item
row per document item. -/
theorem importar_create_roundtrip (env : Env) (s : ImpState)
    (url uuid : String) (dados : MobgranResponse) (b : Bool)
    (hok : ∀ n, env.writeOk n = true)
    (hv : ValidarURL url = .ok ())
    (hu : ExtrairUUIDLink url = some uuid)
    (hnone : VerificarOfertaExistente s.db.store uuid = none)
    (hf : (BuscarDadosAPI env uuid).result = .ok dados) :
    (Importar env s url b).1.sucesso = true ∧
    (Importar env s url b).1.err = none ∧
    (Importar env s url b).2.db.store.ofertas =
      s.db.store.ofertas ++ [mkOfertaRow s.db.store.nextId uuid dados] ∧
    ∃ newCavs newItems,
      (Importar env s url b).2.db.store.cavaletes =
        s.db.store.cavaletes ++ newCavs ∧
      (Importar env s url b).2.db.store.itens = s.db.store.itens ++ newItems ∧
      newCavs.length = dados.cavaletes.length ∧
      newItems.length = (dados.cavaletes.map (fun c => c.itens.length)).sum := by
  rw [importar_create_eq env s url uuid dados b hok hv hu hnone hf]
  exact ⟨rfl, rfl, rfl, _, _, rfl, rfl,
    plannedCavRows_length .., plannedItemRowsAll_length ..⟩

/-- C2 witness: the create path at a concrete link, document and store. -/
theorem importar_create_roundtrip_witness :
    ValidarURL urlEx = .ok () ∧
    ExtrairUUIDLink urlEx = some uuidEx ∧
    VerificarOfertaExistente emptyState.db.store uuidEx = none ∧
    (BuscarDadosAPI (envOk docEx1) uuidEx).result = .ok docEx1 ∧
    (∀ n, (envOk docEx1).writeOk n = true) ∧
    (Importar (envOk docEx1) emptyState urlEx false).1.sucesso = true :=
  ⟨rfl, rfl, rfl, rfl, fun _ => rfl,
    (importar_create_roundtrip (envOk docEx1) emptyState urlEx uuidEx docEx1
      false (fun _ => rfl) rfl rfl rfl rfl).1⟩

/-- C3 counterexample: Importar fetches the upstream document before the
already-exists early return; when that fetch fails, the call returns a
non-nil error and no id even though the offer exists and
atualizarExistente is false (the claim promises a nil error and the
existing id for every such call). -/
theorem importar_decline_can_return_error :
    VerificarOfertaExistente stExisting.db.store uuidEx = some 0 ∧
    (Importar envDown stExisting urlEx false).1.err =
      some "erro ao fazer requisição para API: connection refused" ∧
    (Importar envDown stExisting urlEx false).1.ofertaId = none :=
  ⟨rfl, rfl, rfl⟩

/-- C3 (amended): when the offer exists, atualizarExistente = false, and
the upstream fetch succeeds, Importar performs no store write (the
database component is returned unchanged), returns the existing internal
id, and a nil error. -/
theorem importar_decline_noop (env : Env) (s : ImpState) (url uuid : String)
    (dados : MobgranResponse) (oid : Nat)
    (hv : ValidarURL url = .ok ())
    (hu : ExtrairUUIDLink url = some uuid)
    (hsome : VerificarOfertaExistente s.db.store uuid = some oid)
    (hf : (BuscarDadosAPI env uuid).result = .ok dados) :
    (Importar env s url false).2.db = s.db ∧
    (Importar env s url false).1.ofertaId = some oid ∧
    (Importar env s url false).1.err = none := by
  unfold Importar
  simp [hv, hu, hsome, hf, buscarDadosAPI_httpRequests]

/-- C3 witness: the amended no-op behaviour at a concrete store. -/
theorem importar_decline_noop_witness :
    ValidarURL urlEx = .ok () ∧
    VerificarOfertaExistente stExisting.db.store uuidEx = some 0 ∧
    (BuscarDadosAPI (envOk docEx2) uuidEx).result = .ok docEx2 ∧
    (Importar (envOk docEx2) stExisting urlEx false).2.db = stExisting.db :=
  ⟨rfl, rfl, rfl,
    (importar_decline_noop (envOk docEx2) stExisting urlEx uuidEx docEx2 0
      rfl rfl rfl rfl).1⟩

/-- C4 counterexample: in the already-exists-and-declined case the success
flag of the result is false (the claim says it is true); the outcome is
distinguished only by the nil error and the message. -/
theorem importar_alreadyExists_flag_is_false :
    VerificarOfertaExistente stExisting.db.store uuidEx = some 0 ∧
    (Importar (envOk docEx2) stExisting urlEx false).1.sucesso = false ∧
    (Importar (envOk docEx2) stExisting urlEx false).1.err = none :=
  ⟨rfl, rfl, rfl⟩

/-- C4 (amended): the AlreadyExists outcome carries sucesso = false
together with a nil error, the existing internal id and the dedicated
message; it is a distinct terminal outcome signalled by the nil error, not
by the success flag. -/
theorem importar_alreadyExists_result (env : Env) (s : ImpState)
    (url uuid : String) (dados : MobgranResponse) (oid : Nat)
    (hv : ValidarURL url = .ok ())
    (hu : ExtrairUUIDLink url = some uuid)
    (hsome : VerificarOfertaExistente s.db.store uuid = some oid)
    (hf : (BuscarDadosAPI env uuid).result = .ok dados) :
    (Importar env s url false).1.sucesso = false ∧
    (Importar env s url false).1.err = none ∧
    (Importar env s url false).1.ofertaId = some oid ∧
    (Importar env s url false).1.mensagem =
      "Oferta já existe e atualização não foi solicitada" := by
  unfold Importar
  simp [hv, hu, hsome, hf, buscarDadosAPI_httpRequests]

/-- C4 witness: the amended AlreadyExists result shape at a concrete
store. -/
theorem importar_alreadyExists_result_witness :
    ValidarURL urlEx = .ok () ∧
    VerificarOfertaExistente stExisting.db.store uuidEx = some 0 ∧
    (BuscarDadosAPI (envOk docEx2) uuidEx).result = .ok docEx2 ∧
    (Importar (envOk docEx2) stExisting urlEx false).1.sucesso = false :=
  ⟨rfl, rfl, rfl,
    (importar_alreadyExists_result (envOk docEx2) stExisting urlEx uuidEx
      docEx2 0 rfl rfl rfl rfl).1⟩

/-- Arbitrary-schedule characterization of a failing item loop: the loop
stops at the first failing insert, keeps every earlier insert, touches no
other table, and attempts nothing after the failure. -/
theorem salvarItens_error_char (env : Env) (cid : Nat) (cod : String) :
    ∀ (its : List Item) (db : Db) (e : String) (db' : Db),
      salvarItens env cid cod db its = (.error e, db') →
      db'.store.ofertas = db.store.ofertas ∧
      db'.store.cavaletes = db.store.cavaletes ∧
      (∃ newItems : List ItemRow,
        db'.store.itens = db.store.itens ++ newItems ∧
        db'.writes = db.writes + newItems.length + 1) ∧
      env.writeOk (db'.writes - 1) = false ∧
      (∀ j, db.writes ≤ j → j + 1 < db'.writes → env.writeOk j = true) := by
  intro its
  induction its with
  | nil =>
    intro db e db' h
    simp [salvarItens] at h
  | cons it rest ih =>
    intro db e db' h
    by_cases hw : env.writeOk db.writes = true
    · simp only [salvarItens, SalvarItem, hw, if_true] at h
      obtain ⟨h1, h2, ⟨newI, hit, hwr⟩, hlast, hall⟩ := ih _ e db' h
      have hit' : db'.store.itens =
          (db.store.itens ++ [mkItemRow db.store.nextId cid it]) ++ newI := hit
      have hwr' : db'.writes = db.writes + 1 + newI.length + 1 := hwr
      have hall' : ∀ j, db.writes + 1 ≤ j → j + 1 < db'.writes →
          env.writeOk j = true := hall
      refine ⟨h1, h2,
        ⟨mkItemRow db.store.nextId cid it :: newI, ?_, ?_⟩, hlast, ?_⟩
      · rw [hit']; simp
      · rw [hwr']; simp only [List.length_cons]; omega
      · intro j hj1 hj2
        rcases Nat.eq_or_lt_of_le hj1 with heq | hlt
        · rw [← heq]; exact hw
        · exact hall' j hlt hj2
    · rw [Bool.not_eq_true] at hw
      simp only [salvarItens, SalvarItem, hw, Bool.false_eq_true, if_false,
        Prod.mk.injEq, Except.error.injEq] at h
      obtain ⟨-, hdb⟩ := h
      subst hdb
      refine ⟨rfl, rfl, ⟨[], by simp, by simp⟩, by simpa using hw, ?_⟩
      intro j hj1 hj2
      exact absurd (show j + 1 < db.writes + 1 from hj2) (by omega)

/-- Arbitrary-schedule characterization of a successful item loop. -/
theorem salvarItens_ok_char (env : Env) (cid : Nat) (cod : String) :
    ∀ (its : List Item) (db : Db) (u : Unit) (db' : Db),
      salvarItens env cid cod db its = (.ok u, db') →
      db'.store.ofertas = db.store.ofertas ∧
      db'.store.cavaletes = db.store.cavaletes ∧
      (∃ newItems : List ItemRow,
        db'.store.itens = db.store.itens ++ newItems ∧
        db'.writes = db.writes + newItems.length) ∧
      (∀ j, db.writes ≤ j → j < db'.writes → env.writeOk j = true) := by
  intro its
  induction its with
  | nil =>
    intro db u db' h
    simp only [salvarItens, Prod.mk.injEq] at h
    obtain ⟨-, hdb⟩ := h
    subst hdb
    exact ⟨rfl, rfl, ⟨[], by simp, by simp⟩,
      fun j hj1 hj2 => absurd hj1 (by omega)⟩
  | cons it rest ih =>
    intro db u db' h
    by_cases hw : env.writeOk db.writes = true
    · simp only [salvarItens, SalvarItem, hw, if_true] at h
      obtain ⟨h1, h2, ⟨newI, hit, hwr⟩, hall⟩ := ih _ u db' h
      have hit' : db'.store.itens =
          (db.store.itens ++ [mkItemRow db.store.nextId cid it]) ++ newI := hit
      have hwr' : db'.writes = db.writes + 1 + newI.length := hwr
      have hall' : ∀ j, db.writes + 1 ≤ j → j < db'.writes →
          env.writeOk j = true := hall
      refine ⟨h1, h2, ⟨mkItemRow db.store.nextId cid it :: newI, ?_, ?_⟩, ?_⟩
      · rw [hit']; simp
      · rw [hwr']; simp only [List.length_cons]; omega
      · intro j hj1 hj2
        rcases Nat.eq_or_lt_of_le hj1 with heq | hlt
        · rw [← heq]; exact hw
        · exact hall' j hlt hj2
    · rw [Bool.not_eq_true] at hw
      simp [salvarItens, SalvarItem, hw, Bool.false_eq_true, if_false] at h

/-- Arbitrary-schedule characterization of a failing child-insertion loop:
fail-fast at the first failing insert, all earlier inserts retained, no
delete or compensating write, nothing attempted afterwards. -/
theorem salvarCavaletesEItens_error_char (env : Env) (oid : Nat) :
    ∀ (cavs : List Cavalete) (db : Db) (e : String) (db' : Db),
      salvarCavaletesEItens env oid db cavs = (.error e, db') →
      db'.store.ofertas = db.store.ofertas ∧
      (∃ (newCavs : List CavaleteRow) (newItems : List ItemRow),
        db'.store.cavaletes = db.store.cavaletes ++ newCavs ∧
        db'.store.itens = db.store.itens ++ newItems ∧
        db'.writes = db.writes + newCavs.length + newItems.length + 1) ∧
      env.writeOk (db'.writes - 1) = false ∧
      (∀ j, db.writes ≤ j → j + 1 < db'.writes → env.writeOk j = true) := by
  intro cavs
  induction cavs with
  | nil =>
    intro db e db' h
    simp [salvarCavaletesEItens] at h
  | cons cav rest ih =>
    intro db e db' h
    by_cases hw : env.writeOk db.writes = true
    · simp only [salvarCavaletesEItens, SalvarCavalete, hw, if_true] at h
      split at h
      · next e2 db2 heq =>
        simp only [Prod.mk.injEq, Except.error.injEq] at h
        obtain ⟨-, hdb⟩ := h
        subst hdb
        obtain ⟨h1, h2, ⟨newI, hit, hwr⟩, hlast, hall⟩ :=
          salvarItens_error_char env db.store.nextId cav.codigo cav.itens _ e2 db2 heq
        have h1' : db2.store.ofertas = db.store.ofertas := h1
        have h2' : db2.store.cavaletes =
            db.store.cavaletes ++ [mkCavaleteRow db.store.nextId oid cav] := h2
        have hit' : db2.store.itens = db.store.itens ++ newI := hit
        have hwr' : db2.writes = db.writes + 1 + newI.length + 1 := hwr
        have hall' : ∀ j, db.writes + 1 ≤ j → j + 1 < db2.writes →
            env.writeOk j = true := hall
        refine ⟨h1', ⟨[mkCavaleteRow db.store.nextId oid cav], newI, h2', hit', ?_⟩,
          hlast, ?_⟩
        · rw [hwr']; simp only [List.length_singleton]
        · intro j hj1 hj2
          rcases Nat.eq_or_lt_of_le hj1 with heqj | hlt
          · rw [← heqj]; exact hw
          · exact hall' j hlt hj2
      · next u db2 heq =>
        obtain ⟨h3, ⟨newCavs2, newItems2, hc3, hi3, hw3⟩, hlast3, hall3⟩ :=
          ih db2 e db' h
        obtain ⟨h1, h2, ⟨newI2, hit2, hwr2⟩, hall2⟩ :=
          salvarItens_ok_char env db.store.nextId cav.codigo cav.itens _ u db2 heq
        have h1' : db2.store.ofertas = db.store.ofertas := h1
        have h2' : db2.store.cavaletes =
            db.store.cavaletes ++ [mkCavaleteRow db.store.nextId oid cav] := h2
        have hit2' : db2.store.itens = db.store.itens ++ newI2 := hit2
        have hwr2' : db2.writes = db.writes + 1 + newI2.length := hwr2
        have hall2' : ∀ j, db.writes + 1 ≤ j → j < db2.writes →
            env.writeOk j = true := hall2
        refine ⟨h3.trans h1',
          ⟨mkCavaleteRow db.store.nextId oid cav :: newCavs2, newI2 ++ newItems2,
            ?_, ?_, ?_⟩, hlast3, ?_⟩
        · rw [hc3, h2']; simp
        · rw [hi3, hit2']; simp
        · rw [hw3, hwr2']
          simp only [List.length_cons, List.length_append]
          omega
        · intro j hj1 hj2
          by_cases hj3 : j < db.writes + 1
          · have hje : j = db.writes := by omega
            rw [hje]; exact hw
          · by_cases hj4 : j < db2.writes
            · exact hall2' j (by omega) hj4
            · exact hall3 j (by omega) hj2
    · rw [Bool.not_eq_true] at hw
      simp only [salvarCavaletesEItens, SalvarCavalete, hw, Bool.false_eq_true,
        if_false, Prod.mk.injEq, Except.error.injEq] at h
      obtain ⟨-, hdb⟩ := h
      subst hdb
      refine ⟨rfl, ⟨[], [], by simp, by simp, by simp⟩, by simpa using hw, ?_⟩
      intro j hj1 hj2
      exact absurd (show j + 1 < db.writes + 1 from hj2) (by omega)

/-- C5: when a child insert fails during the create path, Importar reports
failure immediately: the Offer row and every child row inserted before the
failing statement are retained, nothing is deleted or compensated, the
failing statement is the last one attempted (every write attempted before
it succeeded, and none was attempted after it). -/
theorem importar_child_insert_failure_no_cleanup (env : Env) (s : ImpState)
    (url uuid : String) (dados : MobgranResponse) (b : Bool)
    (hv : ValidarURL url = .ok ())
    (hu : ExtrairUUIDLink url = some uuid)
    (hnone : VerificarOfertaExistente s.db.store uuid = none)
    (hf : (BuscarDadosAPI env uuid).result = .ok dados)
    (hmsg : (Importar env s url b).1.mensagem = "Erro ao salvar cavaletes e itens") :
    (Importar env s url b).1.sucesso = false ∧
    (Importar env s url b).1.err ≠ none ∧
    (Importar env s url b).2.db.store.ofertas =
      s.db.store.ofertas ++ [mkOfertaRow s.db.store.nextId uuid dados] ∧
    (∃ (newCavs : List CavaleteRow) (newItems : List ItemRow),
      (Importar env s url b).2.db.store.cavaletes =
        s.db.store.cavaletes ++ newCavs ∧
      (Importar env s url b).2.db.store.itens = s.db.store.itens ++ newItems ∧
      (Importar env s url b).2.db.writes =
        s.db.writes + 1 + newCavs.length + newItems.length + 1 ∧
      env.writeOk ((Importar env s url b).2.db.writes - 1) = false ∧
      (∀ j, s.db.writes ≤ j → j + 1 < (Importar env s url b).2.db.writes →
        env.writeOk j = true)) := by
  unfold Importar at hmsg ⊢
  simp only [hv, hu, hnone, hf, buscarDadosAPI_httpRequests] at hmsg ⊢
  by_cases hw0 : env.writeOk s.db.writes = true
  · simp only [SalvarOferta, hw0, if_true] at hmsg ⊢
    split at hmsg
    · next e2 db2 heq =>
      simp only [heq]
      obtain ⟨h1, ⟨newCavs, newItems, hc, hi, hwr⟩, hlast, hall⟩ :=
        salvarCavaletesEItens_error_char env s.db.store.nextId dados.cavaletes
          _ e2 db2 heq
      have h1' : db2.store.ofertas =
          s.db.store.ofertas ++ [mkOfertaRow s.db.store.nextId uuid dados] := h1
      have hc' : db2.store.cavaletes = s.db.store.cavaletes ++ newCavs := hc
      have hi' : db2.store.itens = s.db.store.itens ++ newItems := hi
      have hwr' : db2.writes =
          s.db.writes + 1 + newCavs.length + newItems.length + 1 := hwr
      have hall' : ∀ j, s.db.writes + 1 ≤ j → j + 1 < db2.writes →
          env.writeOk j = true := hall
      refine ⟨by trivial, by simp, h1', newCavs, newItems, hc', hi', hwr', hlast, ?_⟩
      intro j hj1 hj2
      rcases Nat.eq_or_lt_of_le hj1 with heqj | hlt
      · rw [← heqj]; exact hw0
      · exact hall' j hlt hj2
    · next u db2 heq =>
      have hmsg' : ("Importação realizada com sucesso" : String) =
          "Erro ao salvar cavaletes e itens" := hmsg
      exact absurd hmsg' (by decide)
  · rw [Bool.not_eq_true] at hw0
    simp only [SalvarOferta, hw0, Bool.false_eq_true, if_false] at hmsg
    have hmsg' : ("Erro ao salvar nova oferta" : String) =
        "Erro ao salvar cavaletes e itens" := hmsg
    exact absurd hmsg' (by decide)

/-- C5 witness: with a schedule that accepts the offer insert and the first
cavalete insert but rejects the first item insert, the import fails with the
child-save message and the theorem applies. -/
theorem importar_child_insert_failure_no_cleanup_witness :
    ValidarURL urlEx = .ok () ∧
    VerificarOfertaExistente emptyState.db.store uuidEx = none ∧
    (BuscarDadosAPI (envFailAfter docEx1 2) uuidEx).result = .ok docEx1 ∧
    (Importar (envFailAfter docEx1 2) emptyState urlEx false).1.mensagem =
      "Erro ao salvar cavaletes e itens" ∧
    (Importar (envFailAfter docEx1 2) emptyState urlEx false).1.sucesso = false :=
  ⟨rfl, rfl, rfl, rfl,
    (importar_child_insert_failure_no_cleanup (envFailAfter docEx1 2)
      emptyState urlEx uuidEx docEx1 false rfl rfl rfl rfl rfl).1⟩

/-- A store holding exactly the offer with the given identifier together
with the children a previous successful import of `dados0` left behind. -/
def stWithOffer (uuid : String) (dados0 : MobgranResponse) : ImpState :=
  { db :=
      { store :=
          { ofertas := [mkOfertaRow 0 uuid dados0],
            cavaletes := plannedCavRows 1 0 dados0.cavaletes,
            itens := plannedItemRowsAll 1 dados0.cavaletes,
            nextId := nidAfter 1 dados0.cavaletes },
        writes := 0 },
    fetchCalls := 0 }

/-- C1: for an identifier whose offer already exists, importing its link
twice with atualizarExistente = true, where the fetched document differs
between the calls and every store operation succeeds, leaves the store
holding exactly the offer converged to the second document and exactly the
second document's cavaletes and items: no child row inserted by the first
of the two imports survives the second. -/
theorem importar_replace_convergence (env1 env2 : Env) (url uuid : String)
    (dados0 dados1 dados2 : MobgranResponse)
    (hok1 : ∀ n, env1.writeOk n = true) (hok2 : ∀ n, env2.writeOk n = true)
    (hv : ValidarURL url = .ok ())
    (hu : ExtrairUUIDLink url = some uuid)
    (hf1 : (BuscarDadosAPI env1 uuid).result = .ok dados1)
    (hf2 : (BuscarDadosAPI env2 uuid).result = .ok dados2)
    (hdiff : dados1 ≠ dados2) :
    VerificarOfertaExistente (stWithOffer uuid dados0).db.store uuid = some 0 ∧
    (Importar env2 (Importar env1 (stWithOffer uuid dados0) url true).2
      url true).1.sucesso = true ∧
    (Importar env2 (Importar env1 (stWithOffer uuid dados0) url true).2
      url true).1.err = none ∧
    (Importar env2 (Importar env1 (stWithOffer uuid dados0) url true).2
      url true).2.db.store.ofertas = [mkOfertaRow 0 uuid dados2] ∧
    (Importar env2 (Importar env1 (stWithOffer uuid dados0) url true).2
      url true).2.db.store.cavaletes =
      plannedCavRows (nidAfter (nidAfter 1 dados0.cavaletes) dados1.cavaletes)
        0 dados2.cavaletes ∧
    (Importar env2 (Importar env1 (stWithOffer uuid dados0) url true).2
      url true).2.db.store.itens =
      plannedItemRowsAll (nidAfter (nidAfter 1 dados0.cavaletes) dados1.cavaletes)
        dados2.cavaletes := by
  have hsome0 : VerificarOfertaExistente (stWithOffer uuid dados0).db.store uuid =
      some 0 := by
    simp [VerificarOfertaExistente, stWithOffer, mkOfertaRow]
  have hany0 : (stWithOffer uuid dados0).db.store.ofertas.any
      (fun o => o.id == 0) = true := by
    simp [stWithOffer, mkOfertaRow]
  have hup1 := importar_update_eq env1 (stWithOffer uuid dados0) url uuid dados1
    0 hok1 hv hu hsome0 hany0 hf1
  have hm := congrArg Prod.snd hup1
  have hsome1 : VerificarOfertaExistente
      (Importar env1 (stWithOffer uuid dados0) url true).2.db.store uuid =
      some 0 := by
    rw [hm]
    simp [VerificarOfertaExistente, stWithOffer, mkOfertaRow]
  have hany1 : (Importar env1 (stWithOffer uuid dados0) url true).2.db.store.ofertas.any
      (fun o => o.id == 0) = true := by
    rw [hm]
    simp [stWithOffer, mkOfertaRow]
  rw [importar_update_eq env2 (Importar env1 (stWithOffer uuid dados0) url true).2
    url uuid dados2 0 hok2 hv hu hsome1 hany1 hf2, hm]
  refine ⟨hsome0, by trivial, by trivial, ?_, ?_, ?_⟩
  · simp [stWithOffer, mkOfertaRow]
  · simp [stWithOffer, List.filter_append, plannedCavRows_filter_out]
  · simp [stWithOffer, List.filter_append, plannedCavRows_filter_out,
      plannedItemRowsAll_filter_out]

/-- C1 witness: two concrete update-path imports whose documents differ; the
final store holds exactly the second document's children. -/
theorem importar_replace_convergence_witness :
    ValidarURL urlEx = .ok () ∧
    ExtrairUUIDLink urlEx = some uuidEx ∧
    (BuscarDadosAPI (envOk docEx1) uuidEx).result = .ok docEx1 ∧
    (BuscarDadosAPI (envOk docEx2) uuidEx).result = .ok docEx2 ∧
    docEx1 ≠ docEx2 ∧
    (Importar (envOk docEx2)
        (Importar (envOk docEx1) (stWithOffer uuidEx docEx1) urlEx true).2
        urlEx true).2.db.store.cavaletes =
      plannedCavRows (nidAfter (nidAfter 1 docEx1.cavaletes) docEx1.cavaletes)
        0 docEx2.cavaletes :=
  ⟨rfl, rfl, rfl, rfl, by decide,
    (importar_replace_convergence (envOk docEx1) (envOk docEx2) urlEx uuidEx
      docEx1 docEx1 docEx2 (fun _ => rfl) (fun _ => rfl) rfl rfl rfl rfl
      (by decide)).2.2.2.2.1⟩

end Mobgran
